import Mathlib

/-!
Verification of the Schwarzschild geodesic trajectory module
(`einsteinpy/metric/schwarzschild.py`).

The integration loops of `calculate_trajectory` and
`calculate_trajectory_iterator` are embedded as fuel-indexed recursions over
an abstract adaptive stepper: the external `RK45` collaborator is opaque per
the design, and only its `t` accessor, `y` accessor and `step()` operation
are used by the loops.  Floating-point scalars are idealised as rationals
(the loop layer performs only comparisons and records values, so the field
structure of the scalars is immaterial to it); the trigonometric functions
appearing in the Christoffel symbols are abstracted as function parameters so
that every definition stays executable.
-/

namespace Schwarzschild

/-- The 8-component state vector `[t, r, θ, φ, dt/dλ, dr/dλ, dθ/dλ, dφ/dλ]`. -/
abbrev Vec8 : Type := Fin 8 → ℚ

/-- A 3-component sub-vector (a position or velocity triple). -/
abbrev Vec3 : Type := Fin 3 → ℚ

/-- The observable state of the external adaptive stepper: the current affine
parameter `ODE.t` and the current state vector `ODE.y`. -/
structure OdeState : Type where
  t : ℚ
  y : Vec8

/-- An abstract `step()` operation of the external `RK45` collaborator: it
advances the stepper state by one adaptive increment.  The stepper is bound
to the geodesic field at construction; since it is an opaque collaborator,
the loops below are parameterised by the induced state-to-state map. -/
abbrev Stepper : Type := OdeState → OdeState

/-- Physical-unit tags, modelling the `astropy.units` objects stored in
`units_list` (`u.s`, `u.m`, `u.rad`, `u.one`, `u.m / u.s`, `u.rad / u.s`). -/
inductive UnitTag : Type where
  | second : UnitTag
  | meter : UnitTag
  | radian : UnitTag
  | one : UnitTag
  | meterPerSecond : UnitTag
  | radianPerSecond : UnitTag
deriving DecidableEq

/-- The list `[u.s, u.m, u.m, u.m, u.one, u.m/u.s, u.m/u.s, u.m/u.s]`
assigned to `self.units_list` when Cartesian output is requested
(schwarzschild.py lines 184-193 and 260-269). -/
def cartesianUnitsList : List UnitTag :=
  [UnitTag.second, UnitTag.meter, UnitTag.meter, UnitTag.meter, UnitTag.one,
   UnitTag.meterPerSecond, UnitTag.meterPerSecond, UnitTag.meterPerSecond]

/-- The attributes of a `Schwarzschild` geometry instance set by `__init__`
(schwarzschild.py lines 21-30), together with the optional `units_list`
attribute that `calculate_trajectory` / `calculate_trajectory_iterator`
assign when Cartesian output is requested (`none` models the attribute not
having been assigned yet). -/
structure Schw : Type where
  M : ℚ
  pos_vec : Vec3
  vel_vec : Vec3
  time : ℚ
  time_vel : ℚ
  initial_vec : Vec8
  schwarzschild_r : ℚ
  units_list : Option (List UnitTag)

/-- Modelled from the spec: `einsteinpy.utils.schwarzschild_utils.christoffels`
is not under `src/`.  Per §4.2 and §8 it returns the 4×4×4 Christoffel tensor
of the Schwarzschild metric with `G`, `c` baked into the formulas, symmetric
in its two lower indices by construction, and with all entries other than the
known nonzero Schwarzschild components (`Γ^t_{tr}`, `Γ^r_{tt}`, `Γ^r_{rr}`,
`Γ^r_{θθ}`, `Γ^r_{φφ}`, `Γ^θ_{rθ}`, `Γ^θ_{φφ}`, `Γ^φ_{rφ}`, `Γ^φ_{θφ}` and
their lower-index transposes) exactly zero.  Index order is
(upper, lower, lower) and coordinates are ordered `t, r, θ, φ`; `rs` is the
Schwarzschild radius `2 G M / c²`.  The trigonometric functions are
abstracted as the parameters `sinF`, `cosF`. -/
def christoffels (sinF cosF : ℚ → ℚ) (G c : ℚ) (r θ M : ℚ) :
    Fin 4 → Fin 4 → Fin 4 → ℚ :=
  let rs : ℚ := 2 * G * M / c ^ 2
  ![![![0, rs / (2 * r * (r - rs)), 0, 0],
      ![rs / (2 * r * (r - rs)), 0, 0, 0],
      ![0, 0, 0, 0],
      ![0, 0, 0, 0]],
    ![![c ^ 2 * rs * (r - rs) / (2 * r ^ 3), 0, 0, 0],
      ![0, -rs / (2 * r * (r - rs)), 0, 0],
      ![0, 0, -(r - rs), 0],
      ![0, 0, 0, -(r - rs) * (sinF θ) ^ 2]],
    ![![0, 0, 0, 0],
      ![0, 0, 1 / r, 0],
      ![0, 1 / r, 0, 0],
      ![0, 0, 0, -(sinF θ) * cosF θ]],
    ![![0, 0, 0, 0],
      ![0, 0, 0, 1 / r],
      ![0, 0, 0, cosF θ / sinF θ],
      ![0, 1 / r, cosF θ / sinF θ, 0]]]

/-- `Schwarzschild.f_vec` (schwarzschild.py lines 109-122): the right-hand
side of the geodesic ODE.  `vals[:4] = vec[4:8]`, and `vals[4..7]` are
assembled from the Christoffel entries `chl[0,0,1]`, `chl[1,0,0]`,
`chl[1,1,1]`, `chl[1,2,2]`, `chl[1,3,3]`, `chl[2,2,1]`, `chl[2,3,3]`,
`chl[3,3,1]`, `chl[3,3,2]` exactly as in the source, with
`chl = christoffels(vec[1], vec[2], M)`. -/
def f_vec (sinF cosF : ℚ → ℚ) (G c : ℚ) (M : ℚ) (ld : ℚ) (vec : Vec8) : Vec8 :=
  let chl := christoffels sinF cosF G c (vec 1) (vec 2) M
  fun i =>
    match i.val with
    | 0 => vec 4
    | 1 => vec 5
    | 2 => vec 6
    | 3 => vec 7
    | 4 => -2 * chl 0 0 1 * vec 4 * vec 5
    | 5 => -1 * (chl 1 0 0 * (vec 4) ^ 2 + chl 1 1 1 * (vec 5) ^ 2
        + chl 1 2 2 * (vec 6) ^ 2 + chl 1 3 3 * (vec 7) ^ 2)
    | 6 => -2 * chl 2 2 1 * vec 6 * vec 5 - 1 * chl 2 3 3 * (vec 7) ^ 2
    | _ => -2 * (chl 3 3 1 * vec 7 * vec 5 + chl 3 3 2 * vec 7 * vec 6)

/-- The bound method `self.f_vec` as invoked on a geometry instance: its only
use of the instance is the read of the immutable mass `self.M`
(schwarzschild.py line 111). -/
def f_vec_method (sinF cosF : ℚ → ℚ) (G c : ℚ) (self : Schw) (ld : ℚ)
    (vec : Vec8) : Vec8 :=
  f_vec sinF cosF G c self.M ld vec

/-- The position index `μ` (coordinates `t, r, θ, φ` at indices 0-3) of the
8-component state vector. -/
def xIdx : Fin 4 → Fin 8 := ![0, 1, 2, 3]

/-- The velocity index `μ + 4` of the 8-component state vector. -/
def vIdx : Fin 4 → Fin 8 := ![4, 5, 6, 7]

/-- The slice `y[1:4]` of a state vector (the position triple `r, θ, φ`). -/
def posPart (y : Vec8) : Vec3 := fun j => y ⟨j.val + 1, by omega⟩

/-- The slice `y[5:8]` of a state vector (the velocity triple). -/
def velPart (y : Vec8) : Vec3 := fun j => y ⟨j.val + 5, by omega⟩

/-- The slice assignment `temp[1:4] = p`. -/
def setPos (y : Vec8) (p : Vec3) : Vec8 := fun i =>
  if h : 1 ≤ i.val ∧ i.val ≤ 3 then p ⟨i.val - 1, by omega⟩ else y i

/-- The slice assignment `temp[5:8] = v`. -/
def setVel (y : Vec8) (v : Vec3) : Vec8 := fun i =>
  if h : 5 ≤ i.val then v ⟨i.val - 5, by omega⟩ else y i

/-- The per-state Cartesian conversion of `calculate_trajectory_iterator`
(schwarzschild.py lines 244-246):
`temp = np.copy(ODE.y); temp[1:4] = SphericalToCartesian_pos(ODE.y[1:4]);
temp[5:8] = SphericalToCartesian_vel(ODE.y[1:4], ODE.y[5:8])`.
The coordinate-conversion utilities are external collaborators, passed in as
the abstract functions `pos` and `vel`. -/
def toCartesianState (pos : Vec3 → Vec3) (vel : Vec3 → Vec3 → Vec3)
    (y : Vec8) : Vec8 :=
  setVel (setPos y (pos (posPart y))) (vel (posPart y) (velPart y))

/-- Modelled from the spec: `einsteinpy.utils.S2C_8dim` is not under `src/`.
Per §4.4 step 4 it transforms every state vector of the batch through the
coordinate conversion, position and velocity sub-vectors independently, time
and time-velocity components passed through unchanged — i.e. it applies the
same per-state conversion as the iterator's inline code to each element. -/
def S2C_8dim (pos : Vec3 → Vec3) (vel : Vec3 → Vec3 → Vec3)
    (vecs : List Vec8) : List Vec8 :=
  vecs.map (toCartesianState pos vel)

/-- The `while ODE.t < end_lambda` loop of `calculate_trajectory`
(schwarzschild.py lines 166-178), as a fuel-indexed recursion.  Each
iteration appends `ODE.t` to `lambda_list` and `ODE.y` to `vec_list`,
advances the stepper, and then runs the singularity check: if no warning was
raised yet in this call (`singularity_reached` is false) and the new radial
coordinate `ODE.y[1]` is at or below `scr` (`= 1.001 * r_s`), a runtime
warning is raised, and the loop either breaks (`stop_on_singularity` true)
or sets the one-shot latch (`stop_on_singularity` false).  Returns
`(lambda_list, vec_list, number_of_warnings_raised)`. -/
def trajLoop (step : Stepper) (endLambda scr : ℚ) (stop : Bool) :
    ℕ → OdeState → Bool → List ℚ × List Vec8 × ℕ
  | 0, _, _ => ([], [], 0)
  | n + 1, s, sing =>
    if s.t < endLambda then
      let s' := step s
      if ¬sing ∧ s'.y 1 ≤ scr then
        if stop then ([s.t], [s.y], 1)
        else
          let r := trajLoop step endLambda scr stop n s' true
          (s.t :: r.1, s.y :: r.2.1, 1 + r.2.2)
      else
        let r := trajLoop step endLambda scr stop n s' sing
        (s.t :: r.1, s.y :: r.2.1, r.2.2)
    else ([], [], 0)

/-- The `while True` loop of the generator `yielder_func` inside
`calculate_trajectory_iterator` (schwarzschild.py lines 238-257), as a
fuel-indexed recursion producing the list of the first `fuel` yielded
`(ODE.t, ODE.y)` pairs (Cartesian-converted when `cart` is true).  Each
iteration yields the current pair, advances the stepper, and runs the same
singularity check and one-shot latch as the bulk loop; there is no
end-parameter test (the stepper bound is `1e300`, effectively unbounded).
Returns `(yielded_pairs, number_of_warnings_raised)`. -/
def streamLoop (step : Stepper) (pos : Vec3 → Vec3)
    (vel : Vec3 → Vec3 → Vec3) (cart : Bool) (scr : ℚ) (stop : Bool) :
    ℕ → OdeState → Bool → List (ℚ × Vec8) × ℕ
  | 0, _, _ => ([], 0)
  | n + 1, s, sing =>
    let out := if cart then (s.t, toCartesianState pos vel s.y) else (s.t, s.y)
    let s' := step s
    if ¬sing ∧ s'.y 1 ≤ scr then
      if stop then ([out], 1)
      else
        let r := streamLoop step pos vel cart scr stop n s' true
        (out :: r.1, 1 + r.2)
    else
      let r := streamLoop step pos vel cart scr stop n s' sing
      (out :: r.1, r.2)

/-- `Schwarzschild.calculate_trajectory` (schwarzschild.py lines 124-197),
with the instance passed and returned explicitly so that the attribute
assignment `self.units_list = [...]` of the Cartesian branch is modelled as
state passing.  The opaque `RK45` stepper bound to `self.f_vec` is the
parameter `step`; its initial observable state is
`(t0 = start_lambda, y0 = self.initial_vec)`.  The float threshold
`self.schwarzschild_r.value * 1.001` is idealised as the exact rational
product.  The dictionary dispatch `choice_dict[int(return_cartesian)]()` is
rendered as a conditional. -/
def calculate_trajectory (step : Stepper) (pos : Vec3 → Vec3)
    (vel : Vec3 → Vec3 → Vec3) (self : Schw)
    (start_lambda end_lambda : ℚ) (stop_on_singularity : Bool)
    (return_cartesian : Bool) (fuel : ℕ) :
    Schw × (List ℚ × List Vec8) :=
  let scr := self.schwarzschild_r * (1001 / 1000)
  let r := trajLoop step end_lambda scr stop_on_singularity fuel
    ⟨start_lambda, self.initial_vec⟩ false
  if return_cartesian then
    ({ self with units_list := some cartesianUnitsList },
      (r.1, S2C_8dim pos vel r.2.1))
  else
    (self, (r.1, r.2.1))

/-- `Schwarzschild.calculate_trajectory_iterator` (schwarzschild.py lines
199-270), with the instance passed and returned explicitly.  The returned
generator is represented by the list of its first `fuel` yields together
with the number of warnings those yields raise; `units_list` is assigned
before the generator is returned when Cartesian output is requested
(lines 259-269). -/
def calculate_trajectory_iterator (step : Stepper) (pos : Vec3 → Vec3)
    (vel : Vec3 → Vec3 → Vec3) (self : Schw) (start_lambda : ℚ)
    (stop_on_singularity : Bool) (return_cartesian : Bool) (fuel : ℕ) :
    Schw × (List (ℚ × Vec8) × ℕ) :=
  let scr := self.schwarzschild_r * (1001 / 1000)
  let stream := streamLoop step pos vel return_cartesian scr
    stop_on_singularity fuel ⟨start_lambda, self.initial_vec⟩ false
  if return_cartesian then
    ({ self with units_list := some cartesianUnitsList }, stream)
  else
    (self, stream)

/-- A constant stepper used to exercise the loops on concrete inputs: it
jumps to `t = 1` with all state components `0` (inside any positive
threshold). -/
def stepC : Stepper := fun _ => { t := 1, y := fun _ => 0 }

/-- A stepper that advances the affine parameter by one and keeps the state:
its parameter is strictly increasing, as the adaptive-stepper contract
requires. -/
def stepP : Stepper := fun s => { t := s.t + 1, y := s.y }

/-- A concrete stepper state at `t = 0` with all components `50`. -/
def s0 : OdeState := { t := 0, y := fun _ => 50 }

/-- A concrete position conversion (the identity) for instantiating the
abstract coordinate transform. -/
def posId : Vec3 → Vec3 := fun p => p

/-- A concrete velocity conversion (projection on the velocity argument) for
instantiating the abstract coordinate transform. -/
def velId : Vec3 → Vec3 → Vec3 := fun _ v => v

/-- A concrete geometry instance: mass 7, initial radius 50, Schwarzschild
radius 2, `units_list` not yet assigned. -/
def wSelf : Schw :=
  { M := 7, pos_vec := fun _ => 1, vel_vec := fun _ => 0, time := 0,
    time_vel := 1, initial_vec := fun _ => 50, schwarzschild_r := 2,
    units_list := none }

/-- A second concrete geometry instance with the same mass as `wSelf` but
different values of every other attribute. -/
def wSelf2 : Schw :=
  { M := 7, pos_vec := fun _ => 3, vel_vec := fun _ => 2, time := 1,
    time_vel := 4, initial_vec := fun _ => 9, schwarzschild_r := 5,
    units_list := some cartesianUnitsList }

/-- A concrete geometry instance whose initial radius (50) is far above the
singularity threshold (`2 * 1.001`). -/
def cexSelf : Schw :=
  { M := 1, pos_vec := fun _ => 0, vel_vec := fun _ => 0, time := 0,
    time_vel := 1, initial_vec := fun _ => 50, schwarzschild_r := 2,
    units_list := none }

end Schwarzschild

namespace Schwarzschild

/-! Helper lemmas about the two integration loops. -/

/-- Once the one-shot latch `singularity_reached` is set, the bulk loop
raises no further warnings. -/
theorem trajLoop_latched (step : Stepper) (endLambda scr : ℚ) (stop : Bool) :
    ∀ (n : ℕ) (s : OdeState),
      (trajLoop step endLambda scr stop n s true).2.2 = 0 := by
  intro n
  induction n with
  | zero => intro s; rfl
  | succ n ih =>
    intro s
    by_cases h : s.t < endLambda
    · simp [trajLoop, h, ih]
    · simp [trajLoop, h]

/-- In continue mode the bulk loop raises at most one warning. -/
theorem trajLoop_warn_le_one (step : Stepper) (endLambda scr : ℚ) :
    ∀ (n : ℕ) (s : OdeState),
      (trajLoop step endLambda scr false n s false).2.2 ≤ 1 := by
  intro n
  induction n with
  | zero => intro s; simp [trajLoop]
  | succ n ih =>
    intro s
    by_cases h : s.t < endLambda
    · by_cases h2 : (step s).y 1 ≤ scr
      · simp [trajLoop, h, h2, trajLoop_latched]
      · simp [trajLoop, h, h2, ih]
    · simp [trajLoop, h]

/-- Once the one-shot latch is set, the streaming loop raises no further
warnings. -/
theorem streamLoop_latched (step : Stepper) (pos : Vec3 → Vec3)
    (vel : Vec3 → Vec3 → Vec3) (cart : Bool) (scr : ℚ) (stop : Bool) :
    ∀ (n : ℕ) (s : OdeState),
      (streamLoop step pos vel cart scr stop n s true).2 = 0 := by
  intro n
  induction n with
  | zero => intro s; rfl
  | succ n ih =>
    intro s
    have h2 : ¬(¬(true : Bool) ∧ (step s).y 1 ≤ scr) := by simp
    rw [streamLoop, if_neg h2]
    exact ih (step s)

/-- In continue mode the streaming loop raises at most one warning. -/
theorem streamLoop_warn_le_one (step : Stepper) (pos : Vec3 → Vec3)
    (vel : Vec3 → Vec3 → Vec3) (cart : Bool) (scr : ℚ) :
    ∀ (n : ℕ) (s : OdeState),
      (streamLoop step pos vel cart scr false n s false).2 ≤ 1 := by
  intro n
  induction n with
  | zero => intro s; simp [streamLoop]
  | succ n ih =>
    intro s
    by_cases h2 : ¬(false : Bool) ∧ (step s).y 1 ≤ scr
    · rw [streamLoop, if_pos h2]
      simp only [if_neg (Bool.false_ne_true)]
      simp [streamLoop_latched]
    · rw [streamLoop, if_neg h2]
      exact ih (step s)

/-- When the next step crosses the threshold with the latch unset, the bulk
loop in continue mode raises exactly one warning. -/
theorem trajLoop_fire (step : Stepper) (endLambda scr : ℚ) (n : ℕ)
    (s : OdeState) (h1 : s.t < endLambda) (h2 : (step s).y 1 ≤ scr) :
    (trajLoop step endLambda scr false (n + 1) s false).2.2 = 1 := by
  rw [trajLoop, if_pos h1, if_pos (show ¬(false : Bool) ∧ (step s).y 1 ≤ scr
    from ⟨by simp, h2⟩)]
  simp only [if_neg (Bool.false_ne_true)]
  simp [trajLoop_latched]

/-- When the next step crosses the threshold with the latch unset, the
streaming loop in continue mode raises exactly one warning. -/
theorem streamLoop_fire (step : Stepper) (pos : Vec3 → Vec3)
    (vel : Vec3 → Vec3 → Vec3) (cart : Bool) (scr : ℚ) (n : ℕ)
    (s : OdeState) (h2 : (step s).y 1 ≤ scr) :
    (streamLoop step pos vel cart scr false (n + 1) s false).2 = 1 := by
  rw [streamLoop, if_pos (show ¬(false : Bool) ∧ (step s).y 1 ≤ scr
    from ⟨by simp, h2⟩)]
  simp only [if_neg (Bool.false_ne_true)]
  simp [streamLoop_latched]

/-- Every λ recorded by the bulk loop is at least the entry parameter,
provided each step strictly increases the parameter. -/
theorem trajLoop_lambda_lb (step : Stepper) (endLambda scr : ℚ) (stop : Bool)
    (hstep : ∀ s : OdeState, s.t < (step s).t) :
    ∀ (n : ℕ) (s : OdeState) (sing : Bool) (x : ℚ),
      x ∈ (trajLoop step endLambda scr stop n s sing).1 → s.t ≤ x := by
  intro n
  induction n with
  | zero => intro s sing x hx; simp [trajLoop] at hx
  | succ n ih =>
    intro s sing x hx
    by_cases h : s.t < endLambda
    · by_cases h2 : ¬sing ∧ (step s).y 1 ≤ scr
      · cases stop with
        | true =>
          rw [trajLoop, if_pos h, if_pos h2] at hx
          simp at hx
          exact le_of_eq hx.symm
        | false =>
          rw [trajLoop, if_pos h, if_pos h2] at hx
          simp at hx
          rcases hx with hx | hx
          · exact le_of_eq hx.symm
          · exact le_of_lt (lt_of_lt_of_le (hstep s) (ih (step s) true x hx))
      · rw [trajLoop, if_pos h, if_neg h2] at hx
        simp at hx
        rcases hx with hx | hx
        · exact le_of_eq hx.symm
        · exact le_of_lt (lt_of_lt_of_le (hstep s) (ih (step s) sing x hx))
    · simp [trajLoop, h] at hx

/-- The λ list produced by the bulk loop is strictly increasing, provided
each step strictly increases the parameter. -/
theorem trajLoop_chain (step : Stepper) (endLambda scr : ℚ) (stop : Bool)
    (hstep : ∀ s : OdeState, s.t < (step s).t) :
    ∀ (n : ℕ) (s : OdeState) (sing : Bool),
      List.Chain' (· < ·) (trajLoop step endLambda scr stop n s sing).1 := by
  intro n
  induction n with
  | zero => intro s sing; simp [trajLoop]
  | succ n ih =>
    intro s sing
    by_cases h : s.t < endLambda
    · by_cases h2 : ¬sing ∧ (step s).y 1 ≤ scr
      · cases stop with
        | true => rw [trajLoop, if_pos h, if_pos h2]; simp
        | false =>
          rw [trajLoop, if_pos h, if_pos h2]
          simp only [if_neg (Bool.false_ne_true)]
          refine List.chain'_cons'.mpr ⟨?_, ih (step s) true⟩
          intro y hy
          exact lt_of_lt_of_le (hstep s)
            (trajLoop_lambda_lb step endLambda scr false hstep n (step s) true y
              (List.mem_of_mem_head? hy))
      · rw [trajLoop, if_pos h, if_neg h2]
        refine List.chain'_cons'.mpr ⟨?_, ih (step s) sing⟩
        intro y hy
        exact lt_of_lt_of_le (hstep s)
          (trajLoop_lambda_lb step endLambda scr stop hstep n (step s) sing y
            (List.mem_of_mem_head? hy))
    · simp [trajLoop, h]

/-- `lambda_list` and `vec_list` always have the same length: the loop
appends to both in lockstep. -/
theorem trajLoop_length (step : Stepper) (endLambda scr : ℚ) (stop : Bool) :
    ∀ (n : ℕ) (s : OdeState) (sing : Bool),
      (trajLoop step endLambda scr stop n s sing).1.length
        = (trajLoop step endLambda scr stop n s sing).2.1.length := by
  intro n
  induction n with
  | zero => intro s sing; rfl
  | succ n ih =>
    intro s sing
    by_cases h : s.t < endLambda
    · by_cases h2 : ¬sing ∧ (step s).y 1 ≤ scr
      · cases stop with
        | true => rw [trajLoop, if_pos h, if_pos h2]; rfl
        | false =>
          rw [trajLoop, if_pos h, if_pos h2]
          simp only [if_neg (Bool.false_ne_true)]
          simp [ih]
      · rw [trajLoop, if_pos h, if_neg h2]
        simp [ih]
    · simp [trajLoop, h]

/-- In stop mode, a run entered with radius above the threshold records only
states with radius above the threshold. -/
theorem trajLoop_all_above (step : Stepper) (endLambda scr : ℚ) :
    ∀ (n : ℕ) (s : OdeState), scr < s.y 1 →
      (trajLoop step endLambda scr true n s false).2.1.Forall
        (fun v => scr < v 1) := by
  intro n
  induction n with
  | zero => intro s hs; simp [trajLoop]
  | succ n ih =>
    intro s hs
    by_cases h : s.t < endLambda
    · by_cases h2 : ¬(false : Bool) ∧ (step s).y 1 ≤ scr
      · rw [trajLoop, if_pos h, if_pos h2]
        simp [hs]
      · rw [trajLoop, if_pos h, if_neg h2]
        rw [List.forall_cons]
        refine ⟨hs, ?_⟩
        have h3 : scr < (step s).y 1 := by
          by_contra hcon
          exact h2 ⟨by simp, le_of_not_lt hcon⟩
        exact ih (step s) h3
    · simp [trajLoop, h]

/-- In stop mode, every recorded state except possibly the first has radius
strictly above the threshold: the state that trips the check is never
recorded, because recording happens before the step and the check after. -/
theorem trajLoop_tail_above (step : Stepper) (endLambda scr : ℚ) :
    ∀ (n : ℕ) (s : OdeState),
      ((trajLoop step endLambda scr true n s false).2.1.drop 1).Forall
        (fun v => scr < v 1) := by
  intro n s
  cases n with
  | zero => simp [trajLoop]
  | succ n =>
    by_cases h : s.t < endLambda
    · by_cases h2 : ¬(false : Bool) ∧ (step s).y 1 ≤ scr
      · rw [trajLoop, if_pos h, if_pos h2]
        simp
      · rw [trajLoop, if_pos h, if_neg h2]
        simp only [List.drop_succ_cons, List.drop_zero]
        have h3 : scr < (step s).y 1 := by
          by_contra hcon
          exact h2 ⟨by simp, le_of_not_lt hcon⟩
        exact trajLoop_all_above step endLambda scr n (step s) h3
    · simp [trajLoop, h]

/-- The Cartesian streaming run yields exactly the per-state transform of the
native streaming run (the singularity check reads the stepper state, not the
yielded value). -/
theorem streamLoop_cart_map (step : Stepper) (pos : Vec3 → Vec3)
    (vel : Vec3 → Vec3 → Vec3) (scr : ℚ) (stop : Bool) :
    ∀ (n : ℕ) (s : OdeState) (sing : Bool),
      (streamLoop step pos vel true scr stop n s sing).1
        = ((streamLoop step pos vel false scr stop n s sing).1).map
            (fun p => (p.1, toCartesianState pos vel p.2)) := by
  intro n
  induction n with
  | zero => intro s sing; rfl
  | succ n ih =>
    intro s sing
    by_cases h2 : ¬sing ∧ (step s).y 1 ≤ scr
    · cases stop with
      | true => rw [streamLoop, streamLoop, if_pos h2, if_pos h2]; rfl
      | false =>
        rw [streamLoop, streamLoop, if_pos h2, if_pos h2]
        simp only [if_neg (Bool.false_ne_true)]
        simp [ih]
    · rw [streamLoop, streamLoop, if_neg h2, if_neg h2]
      simp [ih]

/-- A streaming run entered at or past the end parameter contributes nothing
below the end parameter, provided each step strictly increases the
parameter. -/
theorem streamLoop_past_end (step : Stepper) (pos : Vec3 → Vec3)
    (vel : Vec3 → Vec3 → Vec3) (endLambda scr : ℚ) (stop : Bool)
    (hstep : ∀ s : OdeState, s.t < (step s).t) :
    ∀ (n : ℕ) (s : OdeState) (sing : Bool), endLambda ≤ s.t →
      ((streamLoop step pos vel false scr stop n s sing).1).filter
        (fun p => decide (p.1 < endLambda)) = [] := by
  intro n
  induction n with
  | zero => intro s sing hs; rfl
  | succ n ih =>
    intro s sing hs
    have hout : ¬ s.t < endLambda := not_lt.mpr hs
    by_cases h2 : ¬sing ∧ (step s).y 1 ≤ scr
    · cases stop with
      | true =>
        rw [streamLoop, if_pos h2]
        simp [hout]
      | false =>
        rw [streamLoop, if_pos h2]
        simp only [if_neg (Bool.false_ne_true)]
        rw [List.filter_cons, if_neg (by simpa using hout)]
        exact ih (step s) true (le_of_lt (lt_of_le_of_lt hs (hstep s)))
    · rw [streamLoop, if_neg h2]
      rw [List.filter_cons, if_neg (by simpa using hout)]
      exact ih (step s) sing (le_of_lt (lt_of_le_of_lt hs (hstep s)))

/-- The native streaming run restricted to parameters below the end equals
the zipped output of the bulk loop, provided each step strictly increases
the parameter: the two loops record the same point before stepping and run
the same singularity policy after it. -/
theorem streamLoop_filter_eq (step : Stepper) (pos : Vec3 → Vec3)
    (vel : Vec3 → Vec3 → Vec3) (endLambda scr : ℚ) (stop : Bool)
    (hstep : ∀ s : OdeState, s.t < (step s).t) :
    ∀ (n : ℕ) (s : OdeState) (sing : Bool),
      ((streamLoop step pos vel false scr stop n s sing).1).filter
          (fun p => decide (p.1 < endLambda))
        = ((trajLoop step endLambda scr stop n s sing).1).zip
            ((trajLoop step endLambda scr stop n s sing).2.1) := by
  intro n
  induction n with
  | zero => intro s sing; rfl
  | succ n ih =>
    intro s sing
    by_cases h : s.t < endLambda
    · by_cases h2 : ¬sing ∧ (step s).y 1 ≤ scr
      · cases stop with
        | true =>
          rw [streamLoop, trajLoop, if_pos h, if_pos h2, if_pos h2]
          simp [h]
        | false =>
          rw [streamLoop, trajLoop, if_pos h, if_pos h2, if_pos h2]
          simp only [if_neg (Bool.false_ne_true)]
          rw [List.filter_cons, if_pos (by simpa using h), List.zip_cons_cons,
            ih (step s) true]
      · rw [streamLoop, trajLoop, if_pos h, if_neg h2, if_neg h2]
        rw [List.filter_cons, if_pos (by simpa using h), List.zip_cons_cons,
          ih (step s) sing]
        rfl
    · rw [trajLoop, if_neg h]
      simp only [List.zip_nil_left]
      exact streamLoop_past_end step pos vel endLambda scr stop hstep (n + 1) s sing
        (le_of_not_lt h)

/-- When the loop is entered below the end parameter, the entry point is
recorded first, in both lists, whatever the singularity outcome. -/
theorem trajLoop_head (step : Stepper) (endLambda scr : ℚ) (stop : Bool)
    (n : ℕ) (s : OdeState) (sing : Bool) (h : s.t < endLambda) :
    (trajLoop step endLambda scr stop (n + 1) s sing).1.head? = some s.t ∧
    (trajLoop step endLambda scr stop (n + 1) s sing).2.1.head? = some s.y := by
  rw [trajLoop, if_pos h]
  by_cases h2 : ¬sing ∧ (step s).y 1 ≤ scr
  · rw [if_pos h2]
    cases stop with
    | true => exact ⟨rfl, rfl⟩
    | false => exact ⟨rfl, rfl⟩
  · rw [if_neg h2]
    exact ⟨rfl, rfl⟩

end Schwarzschild

namespace Schwarzschild

/-! The claims. -/

/-- Claim C1: in any call to `calculate_trajectory` with
`stop_on_singularity = true`, whenever the loop is entered below the end
parameter with no warning yet raised and the adaptive step brings the radial
coordinate of the new state to or below the threshold, exactly one runtime
warning is raised and the loop terminates immediately: the returned
trajectory ends at the point recorded before that step. -/
theorem claim1_stop_on_singularity_terminates (step : Stepper)
    (endLambda scr : ℚ) (n : ℕ) (s : OdeState)
    (h1 : s.t < endLambda) (h2 : (step s).y 1 ≤ scr) :
    trajLoop step endLambda scr true (n + 1) s false = ([s.t], [s.y], 1) := by
  simp [trajLoop, h1, h2]

/-- Witness for C1 at a concrete stepper and state. -/
theorem claim1_stop_on_singularity_terminates_witness :
    trajLoop stepC 3 2 true (4 + 1) s0 false = ([s0.t], [s0.y], 1) :=
  claim1_stop_on_singularity_terminates stepC 3 2 4 s0 (by decide) (by decide)

/-- Claim C2: with `stop_on_singularity = false`, in both the bulk and the
streaming loop, a run whose latch is already set raises no warning, a run
started with the latch unset raises at most one warning, and when the next
step crosses the threshold with the latch unset the warning fires exactly
once while integration continues. -/
theorem claim2_singularity_warning_one_shot (step : Stepper)
    (pos : Vec3 → Vec3) (vel : Vec3 → Vec3 → Vec3) (cart : Bool)
    (endLambda scr : ℚ) (n : ℕ) (s : OdeState) :
    (trajLoop step endLambda scr false n s true).2.2 = 0 ∧
    (streamLoop step pos vel cart scr false n s true).2 = 0 ∧
    (trajLoop step endLambda scr false n s false).2.2 ≤ 1 ∧
    (streamLoop step pos vel cart scr false n s false).2 ≤ 1 ∧
    (s.t < endLambda → (step s).y 1 ≤ scr →
      (trajLoop step endLambda scr false (n + 1) s false).2.2 = 1) ∧
    ((step s).y 1 ≤ scr →
      (streamLoop step pos vel cart scr false (n + 1) s false).2 = 1) :=
  ⟨trajLoop_latched step endLambda scr false n s,
   streamLoop_latched step pos vel cart scr false n s,
   trajLoop_warn_le_one step endLambda scr n s,
   streamLoop_warn_le_one step pos vel cart scr n s,
   fun h1 h2 => trajLoop_fire step endLambda scr n s h1 h2,
   fun h2 => streamLoop_fire step pos vel cart scr n s h2⟩

/-- Witness for C2 at a concrete stepper and state. -/
theorem claim2_singularity_warning_one_shot_witness :
    (trajLoop stepC 3 2 false 4 s0 true).2.2 = 0 ∧
    (streamLoop stepC posId velId false 2 false 4 s0 true).2 = 0 ∧
    (trajLoop stepC 3 2 false 4 s0 false).2.2 ≤ 1 ∧
    (streamLoop stepC posId velId false 2 false 4 s0 false).2 ≤ 1 ∧
    (trajLoop stepC 3 2 false (4 + 1) s0 false).2.2 = 1 ∧
    (streamLoop stepC posId velId false 2 false (4 + 1) s0 false).2 = 1 := by
  have h := claim2_singularity_warning_one_shot stepC posId velId false 3 2 4 s0
  exact ⟨h.1, h.2.1, h.2.2.1, h.2.2.2.1,
    h.2.2.2.2.1 (by decide) (by decide), h.2.2.2.2.2 (by decide)⟩

/-- Claim C3: for every 8-component state vector, `f_vec` returns the
velocity components as the derivatives of the four position components, and
its last four components equal the full geodesic acceleration
`-Γ^μ_{αβ} (dx^α/dλ)(dx^β/dλ)` of the Christoffel tensor — i.e. the
per-coordinate formulas assembled in the source from only the nonzero
Schwarzschild entries agree with the complete contraction. -/
theorem claim3_f_vec_geodesic_components (sinF cosF : ℚ → ℚ)
    (G c M ld : ℚ) (vec : Vec8) :
    (∀ μ : Fin 4, f_vec sinF cosF G c M ld vec (xIdx μ) = vec (vIdx μ)) ∧
    (∀ μ : Fin 4, f_vec sinF cosF G c M ld vec (vIdx μ) =
      -∑ α : Fin 4, ∑ β : Fin 4,
        christoffels sinF cosF G c (vec 1) (vec 2) M μ α β
          * vec (vIdx α) * vec (vIdx β)) := by
  constructor
  · intro μ
    fin_cases μ <;> rfl
  · intro μ
    fin_cases μ <;>
      simp [f_vec, christoffels, Fin.sum_univ_four, vIdx,
        Matrix.vecHead, Matrix.vecTail] <;> ring

/-- Claim C4: every call to `calculate_trajectory` returns a strictly
increasing λ sequence whose length equals that of the state-vector sequence,
provided each adaptive step strictly increases the affine parameter. -/
theorem claim4_lambda_increasing_equal_lengths (step : Stepper)
    (pos : Vec3 → Vec3) (vel : Vec3 → Vec3 → Vec3) (self : Schw)
    (start_lambda end_lambda : ℚ) (stop cart : Bool) (fuel : ℕ)
    (hstep : ∀ s : OdeState, s.t < (step s).t) :
    List.Chain' (· < ·)
      (calculate_trajectory step pos vel self start_lambda end_lambda stop
        cart fuel).2.1 ∧
    (calculate_trajectory step pos vel self start_lambda end_lambda stop
        cart fuel).2.1.length
      = (calculate_trajectory step pos vel self start_lambda end_lambda stop
        cart fuel).2.2.length := by
  cases cart with
  | false =>
    simp only [calculate_trajectory, if_neg (Bool.false_ne_true)]
    exact ⟨trajLoop_chain step end_lambda _ stop hstep fuel _ false,
      trajLoop_length step end_lambda _ stop fuel _ false⟩
  | true =>
    simp only [calculate_trajectory, if_pos rfl, if_true, S2C_8dim,
      List.length_map]
    exact ⟨trajLoop_chain step end_lambda _ stop hstep fuel _ false,
      trajLoop_length step end_lambda _ stop fuel _ false⟩

/-- Witness for C4 at a concrete strictly increasing stepper. -/
theorem claim4_lambda_increasing_equal_lengths_witness :
    List.Chain' (· < ·)
      (calculate_trajectory stepP posId velId wSelf 0 3 true false 6).2.1 ∧
    (calculate_trajectory stepP posId velId wSelf 0 3 true false 6).2.1.length
      = (calculate_trajectory stepP posId velId wSelf 0 3 true false
          6).2.2.length :=
  claim4_lambda_increasing_equal_lengths stepP posId velId wSelf 0 3 true
    false 6 (fun s => lt_add_one s.t)

/-- Claim C5, counterexample: the claim quantifies over every call, but a
call whose start parameter is not below its end parameter returns empty
sequences even though the initial radius (50) is far above the threshold
(2.002), contradicting the claimed non-emptiness. -/
theorem claim5_counterexample :
    (calculate_trajectory (fun s => s) (fun p => p) (fun _ v => v) cexSelf
        0 0 true false 5).2.1 = [] ∧
    (calculate_trajectory (fun s => s) (fun p => p) (fun _ v => v) cexSelf
        0 0 true false 5).2.2 = ([] : List Vec8) ∧
    cexSelf.schwarzschild_r * (1001 / 1000) < cexSelf.initial_vec 1 := by
  refine ⟨?_, ?_, ?_⟩
  · simp [calculate_trajectory, trajLoop]
  · simp [calculate_trajectory, trajLoop]
  · norm_num [cexSelf]

/-- Claim C5, amended: in every call to `calculate_trajectory` with
`start_lambda < end_lambda` the returned sequences are non-empty — the
initial point (`start_lambda`, recorded first in the λ list) is appended
before the first step is taken, and this holds regardless of the initial
radius, since the singularity check only runs after a step. -/
theorem claim5_nonempty_when_start_below_end (step : Stepper)
    (pos : Vec3 → Vec3) (vel : Vec3 → Vec3 → Vec3) (self : Schw)
    (start_lambda end_lambda : ℚ) (stop cart : Bool) (fuel : ℕ)
    (h : start_lambda < end_lambda) :
    (calculate_trajectory step pos vel self start_lambda end_lambda stop
        cart (fuel + 1)).2.1.head? = some start_lambda ∧
    (calculate_trajectory step pos vel self start_lambda end_lambda stop
        cart (fuel + 1)).2.2 ≠ [] := by
  have hh := trajLoop_head step end_lambda (self.schwarzschild_r * (1001 / 1000))
    stop fuel ⟨start_lambda, self.initial_vec⟩ false h
  cases cart with
  | false =>
    simp only [calculate_trajectory, if_neg (Bool.false_ne_true)]
    refine ⟨hh.1, ?_⟩
    intro hc
    rw [hc] at hh
    simp at hh
  | true =>
    simp only [calculate_trajectory, if_pos rfl, if_true, S2C_8dim, ne_eq,
      List.map_eq_nil_iff]
    refine ⟨hh.1, ?_⟩
    intro hc
    rw [hc] at hh
    simp at hh

/-- Witness for the amended C5 at a concrete call. -/
theorem claim5_nonempty_when_start_below_end_witness :
    (calculate_trajectory stepC posId velId wSelf 0 3 true false
        (5 + 1)).2.1.head? = some 0 ∧
    (calculate_trajectory stepC posId velId wSelf 0 3 true false
        (5 + 1)).2.2 ≠ [] :=
  claim5_nonempty_when_start_below_end stepC posId velId wSelf 0 3 true false
    5 (by decide)

/-- Claim C6: the Cartesian conversion of a state vector leaves the time
component (index 0) and the time-velocity component (index 4) unchanged and
transforms the position (1-3) and velocity (5-7) sub-vectors independently;
the bulk mode applies exactly this per-state conversion to every returned
state vector, and the streaming mode to every yielded pair. -/
theorem claim6_cartesian_transform_structure (pos : Vec3 → Vec3)
    (vel : Vec3 → Vec3 → Vec3) (y : Vec8) (step : Stepper) (self : Schw)
    (start_lambda end_lambda : ℚ) (stop : Bool) (fuel : ℕ) :
    toCartesianState pos vel y 0 = y 0 ∧
    toCartesianState pos vel y 4 = y 4 ∧
    posPart (toCartesianState pos vel y) = pos (posPart y) ∧
    velPart (toCartesianState pos vel y) = vel (posPart y) (velPart y) ∧
    (calculate_trajectory step pos vel self start_lambda end_lambda stop true
        fuel).2.2
      = ((calculate_trajectory step pos vel self start_lambda end_lambda stop
          false fuel).2.2).map (toCartesianState pos vel) ∧
    (calculate_trajectory_iterator step pos vel self start_lambda stop true
        fuel).2.1
      = ((calculate_trajectory_iterator step pos vel self start_lambda stop
          false fuel).2.1).map
        (fun p => (p.1, toCartesianState pos vel p.2)) := by
  refine ⟨rfl, rfl, ?_, ?_, ?_, ?_⟩
  · funext j
    fin_cases j <;> rfl
  · funext j
    fin_cases j <;> rfl
  · simp only [calculate_trajectory, if_pos rfl, if_true,
      if_neg (Bool.false_ne_true), S2C_8dim]
  · simp only [calculate_trajectory_iterator, if_pos rfl, if_true,
      if_neg (Bool.false_ne_true)]
    exact streamLoop_cart_map step pos vel _ stop fuel _ false

/-- Claim C7: with the same geometry, start parameter, singularity policy
and Cartesian flag, the pairs yielded by `calculate_trajectory_iterator`
whose λ lies below the bulk call's end parameter are exactly the zipped
(λ, state) pairs returned by `calculate_trajectory`, in the same order,
provided each adaptive step strictly increases the affine parameter. -/
theorem claim7_iterator_matches_bulk (step : Stepper) (pos : Vec3 → Vec3)
    (vel : Vec3 → Vec3 → Vec3) (self : Schw) (start_lambda end_lambda : ℚ)
    (stop cart : Bool) (fuel : ℕ)
    (hstep : ∀ s : OdeState, s.t < (step s).t) :
    ((calculate_trajectory_iterator step pos vel self start_lambda stop cart
        fuel).2.1).filter (fun p => decide (p.1 < end_lambda))
      = ((calculate_trajectory step pos vel self start_lambda end_lambda stop
          cart fuel).2.1).zip
        ((calculate_trajectory step pos vel self start_lambda end_lambda stop
          cart fuel).2.2) := by
  cases cart with
  | false =>
    simp only [calculate_trajectory_iterator, calculate_trajectory,
      if_neg (Bool.false_ne_true)]
    exact streamLoop_filter_eq step pos vel end_lambda _ stop hstep fuel _ false
  | true =>
    simp only [calculate_trajectory_iterator, calculate_trajectory,
      if_pos rfl, if_true, S2C_8dim]
    rw [streamLoop_cart_map, List.filter_map, List.zip_map_right]
    rw [show ((fun p : ℚ × Vec8 => decide (p.1 < end_lambda)) ∘
        (fun p : ℚ × Vec8 => (p.1, toCartesianState pos vel p.2)))
      = (fun p : ℚ × Vec8 => decide (p.1 < end_lambda)) from rfl]
    rw [streamLoop_filter_eq step pos vel end_lambda _ stop hstep fuel _ false]
    rw [show (fun p : ℚ × Vec8 => (p.1, toCartesianState pos vel p.2))
      = Prod.map id (toCartesianState pos vel) from rfl]

/-- Witness for C7 at a concrete strictly increasing stepper, in Cartesian
mode. -/
theorem claim7_iterator_matches_bulk_witness :
    ((calculate_trajectory_iterator stepP posId velId wSelf 0 true true
        6).2.1).filter (fun p => decide (p.1 < (3 : ℚ)))
      = ((calculate_trajectory stepP posId velId wSelf 0 3 true true
          6).2.1).zip
        ((calculate_trajectory stepP posId velId wSelf 0 3 true true
          6).2.2) :=
  claim7_iterator_matches_bulk stepP posId velId wSelf 0 3 true true 6
    (fun s => lt_add_one s.t)

/-- Claim C8: `f_vec` is pure — its result depends only on the state-vector
argument and the immutable mass attribute of the instance, not on the affine
parameter or any other attribute, so two calls on instances with equal mass
and the same state return identical derivative vectors. -/
theorem claim8_f_vec_reads_only_mass (sinF cosF : ℚ → ℚ) (G c : ℚ)
    (a b : Schw) (h : a.M = b.M) (ld1 ld2 : ℚ) (vec : Vec8) :
    f_vec_method sinF cosF G c a ld1 vec
      = f_vec_method sinF cosF G c b ld2 vec := by
  unfold f_vec_method
  rw [h]
  rfl

/-- Witness for C8 on two concrete instances sharing only the mass. -/
theorem claim8_f_vec_reads_only_mass_witness :
    f_vec_method (fun q => q) (fun q => q) 1 1 wSelf 3 (fun _ => 1)
      = f_vec_method (fun q => q) (fun q => q) 1 1 wSelf2 4 (fun _ => 1) :=
  claim8_f_vec_reads_only_mass (fun q => q) (fun q => q) 1 1 wSelf wSelf2
    rfl 3 4 (fun _ => 1)

/-- Claim C9: with `stop_on_singularity = true`, every state vector returned
by `calculate_trajectory` except possibly the first has radial coordinate
strictly above `1.001` times the Schwarzschild radius — the state that trips
the singularity check is never recorded, because each point is recorded
before the step and the check runs after it. -/
theorem claim9_recorded_states_above_threshold (step : Stepper)
    (pos : Vec3 → Vec3) (vel : Vec3 → Vec3 → Vec3) (self : Schw)
    (start_lambda end_lambda : ℚ) (fuel : ℕ) :
    ((calculate_trajectory step pos vel self start_lambda end_lambda true
        false fuel).2.2.drop 1).Forall
      (fun v => self.schwarzschild_r * (1001 / 1000) < v 1) := by
  simp only [calculate_trajectory, if_neg (Bool.false_ne_true)]
  exact trajLoop_tail_above step end_lambda _ fuel _

/-- Claim C10: both entry points assign the Cartesian `units_list` to the
instance exactly when Cartesian output is requested, and leave every
attribute of the instance unchanged otherwise. -/
theorem claim10_units_list_side_effect (step : Stepper) (pos : Vec3 → Vec3)
    (vel : Vec3 → Vec3 → Vec3) (self : Schw) (start_lambda end_lambda : ℚ)
    (stop : Bool) (fuel : ℕ) :
    (calculate_trajectory step pos vel self start_lambda end_lambda stop
        true fuel).1 = { self with units_list := some cartesianUnitsList } ∧
    (calculate_trajectory step pos vel self start_lambda end_lambda stop
        false fuel).1 = self ∧
    (calculate_trajectory_iterator step pos vel self start_lambda stop
        true fuel).1 = { self with units_list := some cartesianUnitsList } ∧
    (calculate_trajectory_iterator step pos vel self start_lambda stop
        false fuel).1 = self := by
  refine ⟨?_, ?_, ?_, ?_⟩ <;>
    simp [calculate_trajectory, calculate_trajectory_iterator]

end Schwarzschild
